import Mathlib

/-!
Stundenplan plugin — verification of the card geometry/state engine.

Shallow embedding of `src/stundenplan-plugin/main.js` (an Obsidian weekly
schedule plugin).  All pixel quantities are JavaScript numbers; we model them
as rationals (`ℚ`), which is exact for every computation the code performs
(multiplication by decimal constants, division, `Math.round`, `Math.min`,
`Math.max`, `Math.abs`).  The DOM is modelled by explicit grid measurements
(`Grid` below): the live `getBoundingClientRect` values of the grid container
and of the row-1 cell of each day column, taken as given, with every cell
present (the JS guards `if (!cellRect) continue` / `if (!row1Rect) return`
never fire once the grid is laid out).  The card store `this.cards`
(a JS object used as an id → card map) is modelled as a function
`String → Option Card`.
-/

/-- JavaScript `Math.round`: round half toward +∞, i.e. `⌊x + 1/2⌋`. -/
def jsRound (q : ℚ) : ℤ := ⌊q + 1/2⌋

/-- `Math.round(x * 2) / 2` — snap to 0.5 increments, used by both the
move-snap (line 311) and the resize-snap (line 265) of `main.js`. -/
def roundHalf (q : ℚ) : ℚ := (jsRound (q * 2) : ℚ) / 2

/-- The fixed palette `CARD_COLORS` of `main.js`. -/
def CARD_COLORS : List String :=
  ["#a8d8ea", "#b8e0d2", "#ffd6a5", "#ffadad",
   "#caffbf", "#e0bbff", "#fdffb6", "#cfcfcf"]

/-- A pixel rectangle (a `DOMRect` / the element's style box). -/
structure PxRect where
  left : ℚ
  top : ℚ
  width : ℚ
  height : ℚ
  deriving DecidableEq

/-- The live grid measurements the view reads from the DOM:
`_getGridRect` (left/top), `_getRowHeight` (height of cell `1-1`),
`_getColWidth` (width of cell `0-1`), and `_getCellRect(1, c)` for the
row-1 cell of day column `c ∈ {1,…,5}` (`cell1 c`). -/
structure Grid where
  gridLeft : ℚ
  gridTop : ℚ
  rowHeight : ℚ
  colWidth : ℚ
  cell1 : ℕ → PxRect

/-- A persisted card record (`{ id, col, topRowFrac, heightFrac, text, color }`,
created at `_createCard`, line 417). -/
structure Card where
  id : String
  col : ℕ
  topRowFrac : ℚ
  heightFrac : ℚ
  text : String
  color : String
  deriving DecidableEq

/-- The card store `this.cards`: id → card mapping. -/
def CardStore := String → Option Card

/-- `_renderCard` (lines 166–209): the pure pixel rectangle assigned to a
card's element (`el.style.left/top/width/height`).  `left` and `top` are
relative to the grid container (the code subtracts `gridRect.left/top`). -/
def renderCard (g : Grid) (card : Card) : PxRect :=
  let cellRect := g.cell1 card.col
  let cardWidth := g.colWidth * (90/100)
  let hMargin := (g.colWidth - cardWidth) / 2
  let vMargin := g.rowHeight * (10/100)
  let totalSlotPx := max card.heightFrac (1/2) * g.rowHeight
  let cardHeight := max (totalSlotPx - vMargin * 2) (g.rowHeight * (30/100))
  let slotTopPx := (cellRect.top - g.gridTop) + card.topRowFrac * g.rowHeight
  { left := cellRect.left - g.gridLeft + hMargin
    top := slotTopPx + vMargin
    width := cardWidth
    height := cardHeight }

/-- Horizontal distance from the center of day column `c`'s row-1 cell to a
given x-coordinate (the body of the loop at lines 299–304). -/
def colDist (g : Grid) (x : ℚ) (c : ℕ) : ℚ :=
  |(g.cell1 c).left + (g.cell1 c).width / 2 - x|

/-- The `for (let c = 1; c <= 5; c++)` loop of `_snapCardToGrid`
(lines 297–304): running `bestCol`/`bestDist`, update on strict `<`;
`bestDist` starts at `Infinity`, modelled as `none`. -/
def snapColLoop (f : ℕ → ℚ) : List ℕ → ℕ → Option ℚ → ℕ
  | [], best, _ => best
  | c :: rest, _, none => snapColLoop f rest c (some (f c))
  | c :: rest, best, some bd =>
      if f c < bd then snapColLoop f rest c (some (f c))
      else snapColLoop f rest best (some bd)

/-- Column selection of `_snapCardToGrid`: the day column (1–5) whose row-1
cell center is closest to `x`, first-seen minimum winning. -/
def snapCol (g : Grid) (x : ℚ) : ℕ :=
  snapColLoop (colDist g x) [1, 2, 3, 4, 5] 1 none

/-- Vertical selection of `_snapCardToGrid` (lines 307–312): rows from the
top of row 1, snapped to 0.5 increments, clamped into `[0, 11.5]`
(`Math.max(0, Math.min(11.5, snapped))`). -/
def snapTopFrac (rowsFromTop : ℚ) : ℚ :=
  max 0 (min (23/2) (roundHalf rowsFromTop))

/-- `_snapCardToGrid(cardId, el)` (lines 286–318), as a store transformer.
`styleLeft`/`styleTop`/`styleWidth` are the element's style values (grid
relative); the code adds `gridRect.left/top` back to get absolute pixels.
Unknown id: `if (!card) return` — store unchanged. -/
def snapCardToGrid (s : CardStore) (g : Grid) (cardId : String)
    (styleLeft styleTop styleWidth : ℚ) : CardStore :=
  match s cardId with
  | none => s
  | some card =>
      let elLeft := styleLeft + g.gridLeft
      let elTop := styleTop + g.gridTop
      let bestCol := snapCol g (elLeft + styleWidth / 2)
      let row1Rect := g.cell1 bestCol
      let rowsFromTop := (elTop - row1Rect.top) / g.rowHeight
      let clampedTop := snapTopFrac rowsFromTop
      fun j => if j = cardId then
        some { card with col := bestCol, topRowFrac := clampedTop } else s j

/-- The resize-handle `onUp` (lines 261–271): snap the element's pixel height
to 0.5-row increments, floor at 0.5, write `card.heightFrac`, save.  (No
re-render happens; see `resizeReleaseElementHeight` for what the element
shows.)  The handler mutates the captured card object; on the store mapping
this is: update the card if its id is still present, else no change. -/
def resizeRelease (s : CardStore) (cardId : String)
    (stylePxHeight rowHeight : ℚ) : CardStore :=
  match s cardId with
  | none => s
  | some card =>
      let snapped := roundHalf (stylePxHeight / rowHeight)
      fun j => if j = cardId then
        some { card with heightFrac := max (1/2) snapped } else s j

/-- The pixel height the resize `onUp` assigns to the element
(`el.style.height = card.heightFrac * rowHeight`, line 268) — set directly,
not via `_renderCard`. -/
def resizeReleaseElementHeight (stylePxHeight rowHeight : ℚ) : ℚ :=
  max (1/2) (roundHalf (stylePxHeight / rowHeight)) * rowHeight

/-- `_createCard(row, col)` (lines 413–431), store part: new card with
`topRowFrac = row − 1`, `heightFrac = 1`, default text and color; the new
card becomes active. -/
def createCard (s : CardStore) (newId : String) (row col : ℕ) :
    CardStore × Option String :=
  let card : Card :=
    { id := newId
      col := col
      topRowFrac := (row : ℚ) - 1
      heightFrac := 1
      text := "Neue Karte"
      color := "#a8d8ea" }
  (fun j => if j = newId then some card else s j, some newId)

/-- `_deleteCard(cardId)` (lines 456–461): remove the record (JS `delete` on
an absent key is a no-op on the mapping); clear the active id if it pointed
at the deleted card. -/
def deleteCard (s : CardStore) (cardId : String) (active : Option String) :
    CardStore × Option String :=
  (fun j => if j = cardId then none else s j,
   if active = some cardId then none else active)

/-- `_setCardColor(cardId, color)` (lines 463–469): guarded by
`if (this.cards[cardId])`. -/
def setCardColor (s : CardStore) (cardId : String) (color : String) :
    CardStore :=
  match s cardId with
  | none => s
  | some card =>
      fun j => if j = cardId then some { card with color := color } else s j

/-- The edit-commit closure `done` of `_editCard` (lines 445–453): guarded by
`if (this.cards[cardId])`. -/
def setCardText (s : CardStore) (cardId : String) (text : String) :
    CardStore :=
  match s cardId with
  | none => s
  | some card =>
      fun j => if j = cardId then some { card with text := text } else s j

/-- `_copyActiveCard` (lines 486–499): if an active card exists in the store,
insert `Object.assign({}, orig, { id: newId, topRowFrac: orig.topRowFrac +
orig.heightFrac + 0.5 })` under the fresh id and make it active; otherwise
return (`if (!this.activeCardId) return; … if (!orig) return;`). -/
def copyActiveCard (s : CardStore) (active : Option String) (newId : String) :
    CardStore × Option String :=
  match active with
  | none => (s, active)
  | some aid =>
      match s aid with
      | none => (s, active)
      | some orig =>
          let newCard : Card :=
            { orig with
                id := newId
                topRowFrac := orig.topRowFrac + orig.heightFrac + 1/2 }
          (fun j => if j = newId then some newCard else s j, some newId)

/-- The `moved` flag of the card-body `mousedown` handler (lines 224–231):
latched once any mousemove has `Math.abs(dx) > 3 || Math.abs(dy) > 3`,
where `(dx, dy)` is the cumulative delta from the press position. -/
def movedAfter (moves : List (ℚ × ℚ)) : Bool :=
  moves.any fun p => decide (3 < |p.1|) || decide (3 < |p.2|)

/-- What a card-body pointer release does (the `onUp` closure, lines
233–244): if `moved`, snap the dragged element to the grid; otherwise treat
as a click — set the card active and enter text-edit mode.  Result:
(new store, new active id, whether edit mode was entered). -/
def cardBodyRelease (s : CardStore) (g : Grid) (active : Option String)
    (cardId : String) (moves : List (ℚ × ℚ))
    (styleLeft styleTop styleWidth : ℚ) :
    CardStore × Option String × Bool :=
  if movedAfter moves then
    (snapCardToGrid s g cardId styleLeft styleTop styleWidth, active, false)
  else
    (s, some cardId, true)

/-- Range predicate of the `topRowFrac` data-model invariant. -/
def topInRange (q : ℚ) : Prop := 0 ≤ q ∧ q ≤ 23/2

/-- Every card in the store has `topRowFrac ∈ [0, 11.5]`. -/
def storeTopInRange (s : CardStore) : Prop :=
  ∀ i c, s i = some c → topInRange c.topRowFrac

/-- Every card in the store has `heightFrac ≥ 0.5`. -/
def storeHeightOk (s : CardStore) : Prop :=
  ∀ i c, s i = some c → (1/2 : ℚ) ≤ c.heightFrac

/-- A concrete grid-measurement fixture: grid box at the origin, 100 px rows
and columns, day column `c`'s row-1 cell at `(100·c, 50)`, 100 px wide. -/
def exGrid : Grid :=
  { gridLeft := 0, gridTop := 0, rowHeight := 100, colWidth := 100
    cell1 := fun c => ⟨100 * c, 50, 100, 100⟩ }

/-- A concrete card fixture. -/
def exCard : Card :=
  { id := "a", col := 2, topRowFrac := 3, heightFrac := 1
    text := "t", color := "#a8d8ea" }

/-- A store holding just `exCard` under id `"a"`. -/
def exStore : CardStore := fun j => if j = "a" then some exCard else none

/-- A card fixture sitting at the bottom boundary `topRowFrac = 11.5`. -/
def exCardBottom : Card :=
  { id := "a", col := 2, topRowFrac := 23/2, heightFrac := 1
    text := "t", color := "#a8d8ea" }

/-- A store holding just `exCardBottom` under id `"a"`. -/
def exStoreBottom : CardStore :=
  fun j => if j = "a" then some exCardBottom else none

/-!
The column-selection loop: first-seen minimum.

`snapColLoop f l b (some (f b))` over a strictly increasing `b :: l` returns
the least-index minimiser of `f` on `b :: l`.
-/

lemma snapColLoop_cons_none (f : ℕ → ℚ) (c : ℕ) (l : List ℕ) (b : ℕ) :
    snapColLoop f (c :: l) b none = snapColLoop f l c (some (f c)) := rfl

lemma snapColLoop_spec (f : ℕ → ℚ) :
    ∀ (l : List ℕ) (b : ℕ), List.Pairwise (· < ·) (b :: l) →
      (snapColLoop f l b (some (f b)) = b ∨
        snapColLoop f l b (some (f b)) ∈ l) ∧
      (∀ c ∈ b :: l, f (snapColLoop f l b (some (f b))) ≤ f c) ∧
      (∀ c ∈ b :: l, c < snapColLoop f l b (some (f b)) →
        f (snapColLoop f l b (some (f b))) < f c) := by
  intro l
  induction l with
  | nil =>
      intro b _
      refine ⟨Or.inl rfl, ?_, ?_⟩
      · intro c hc
        simp only [List.mem_singleton] at hc
        subst hc
        exact le_refl _
      · intro c hc hlt
        simp only [List.mem_singleton] at hc
        subst hc
        exact absurd hlt (lt_irrefl _)
  | cons c₀ rest ih =>
      intro b hpw
      have hbc₀ : b < c₀ := (List.pairwise_cons.mp hpw).1 c₀ (by simp)
      have hpw' : List.Pairwise (· < ·) (c₀ :: rest) :=
        (List.pairwise_cons.mp hpw).2
      have hball : ∀ c ∈ c₀ :: rest, b < c := (List.pairwise_cons.mp hpw).1
      by_cases h : f c₀ < f b
      · have hres : snapColLoop f (c₀ :: rest) b (some (f b))
            = snapColLoop f rest c₀ (some (f c₀)) := by
          simp [snapColLoop, h]
        obtain ⟨ih1, ih2, ih3⟩ := ih c₀ hpw'
        rw [hres]
        refine ⟨?_, ?_, ?_⟩
        · rcases ih1 with h1 | h1
          · exact Or.inr (by simp [h1])
          · exact Or.inr (by simp [h1])
        · intro c hc
          rcases List.mem_cons.mp hc with rfl | hc'
          · have := ih2 c₀ (by simp)
            exact le_trans this (le_of_lt h)
          · exact ih2 c hc'
        · intro c hc hlt
          rcases List.mem_cons.mp hc with rfl | hc'
          · have := ih2 c₀ (by simp)
            exact lt_of_le_of_lt this h
          · exact ih3 c hc' hlt
      · have hres : snapColLoop f (c₀ :: rest) b (some (f b))
            = snapColLoop f rest b (some (f b)) := by
          simp [snapColLoop, h]
        have hfb : f b ≤ f c₀ := le_of_not_lt h
        have hpw'' : List.Pairwise (· < ·) (b :: rest) := by
          have : List.Sublist (b :: rest) (b :: c₀ :: rest) := by
            refine List.cons_sublist_cons.mpr ?_
            exact List.sublist_cons_self c₀ rest
          exact List.Pairwise.sublist this hpw
        obtain ⟨ih1, ih2, ih3⟩ := ih b hpw''
        rw [hres]
        refine ⟨?_, ?_, ?_⟩
        · rcases ih1 with h1 | h1
          · exact Or.inl h1
          · exact Or.inr (by simp [h1])
        · intro c hc
          rcases List.mem_cons.mp hc with rfl | hc'
          · exact le_trans (ih2 c (by simp)) rfl.le
          · rcases List.mem_cons.mp hc' with rfl | hc''
            · exact le_trans (ih2 b (by simp)) hfb
            · exact ih2 c (by simp [hc''])
        · intro c hc hlt
          rcases List.mem_cons.mp hc with rfl | hc'
          · exact ih3 c (by simp) hlt
          · rcases List.mem_cons.mp hc' with rfl | hc''
            · -- c = c₀; the result is b or lies in rest
              rcases ih1 with h1 | h1
              · rw [h1] at hlt
                exact absurd hlt (not_lt_of_lt hbc₀)
              · have hbr : b < snapColLoop f rest b (some (f b)) :=
                  hball _ (by simp [h1])
                have := ih3 b (by simp) hbr
                exact lt_of_lt_of_le this hfb
            · exact ih3 c (by simp [hc'']) hlt

/-- `snapCol` returns a day column in 1..5 minimising the distance to the
row-1 cell centers, lowest index winning ties. -/
lemma snapCol_spec (g : Grid) (x : ℚ) :
    (1 ≤ snapCol g x ∧ snapCol g x ≤ 5) ∧
    (∀ c, 1 ≤ c → c ≤ 5 → colDist g x (snapCol g x) ≤ colDist g x c) ∧
    (∀ c, 1 ≤ c → c ≤ 5 → colDist g x c = colDist g x (snapCol g x) →
      snapCol g x ≤ c) := by
  have hpw : List.Pairwise (· < ·) ([1, 2, 3, 4, 5] : List ℕ) := by decide
  have hrw : snapCol g x
      = snapColLoop (colDist g x) [2, 3, 4, 5] 1 (some (colDist g x 1)) := rfl
  obtain ⟨h1, h2, h3⟩ := snapColLoop_spec (colDist g x) [2, 3, 4, 5] 1 hpw
  rw [hrw]
  set r := snapColLoop (colDist g x) [2, 3, 4, 5] 1 (some (colDist g x 1))
    with hr
  have hmem : r = 1 ∨ r ∈ ([2, 3, 4, 5] : List ℕ) := h1
  have hrange : 1 ≤ r ∧ r ≤ 5 := by
    rcases hmem with h | h
    · omega
    · simp only [List.mem_cons, List.not_mem_nil, or_false] at h
      omega
  refine ⟨hrange, ?_, ?_⟩
  · intro c hc1 hc5
    have hcm : c ∈ (1 : ℕ) :: [2, 3, 4, 5] := by
      simp only [List.mem_cons, List.not_mem_nil, or_false]
      omega
    exact h2 c hcm
  · intro c hc1 hc5 heq
    have hcm : c ∈ (1 : ℕ) :: [2, 3, 4, 5] := by
      simp only [List.mem_cons, List.not_mem_nil, or_false]
      omega
    by_contra hcon
    have hlt : c < r := by omega
    have := h3 c hcm hlt
    rw [heq] at this
    exact absurd this (lt_irrefl _)

/-- The spec's boundary case: a computed rows-from-top offset of 12.2 rounds
to 12 and clamps to 11.5. -/
lemma snapTopFrac_at_12_2 : snapTopFrac (61/5) = 23/2 := by
  have h : jsRound (61/5 * 2) = 24 := by
    rw [jsRound, Int.floor_eq_iff]
    norm_num
  rw [snapTopFrac, roundHalf, h]
  rw [show ((24 : ℤ) : ℚ) / 2 = 12 by norm_num]
  rw [min_eq_left (by norm_num), max_eq_right (by norm_num)]

/-- C1: after a move-drag release, the snap picks the day column whose row-1
cell center is horizontally closest to the dragged rectangle's center (ties
to the lowest column index), computes rows-from-top-of-row-1 as
`(rect.top − row1.top) / rowHeight` rounded to the nearest 0.5 and clamped
into [0, 11.5], and writes that `(col, topRowFrac)` to the card; a drop whose
computed offset is 12.2 yields `topRowFrac = 11.5`. -/
theorem move_release_snap (s : CardStore) (g : Grid) (i : String)
    (card : Card) (styleLeft styleTop styleWidth : ℚ)
    (hs : s i = some card) :
    (1 ≤ snapCol g (styleLeft + g.gridLeft + styleWidth / 2) ∧
      snapCol g (styleLeft + g.gridLeft + styleWidth / 2) ≤ 5) ∧
    (∀ c, 1 ≤ c → c ≤ 5 →
      colDist g (styleLeft + g.gridLeft + styleWidth / 2)
          (snapCol g (styleLeft + g.gridLeft + styleWidth / 2))
        ≤ colDist g (styleLeft + g.gridLeft + styleWidth / 2) c) ∧
    (∀ c, 1 ≤ c → c ≤ 5 →
      colDist g (styleLeft + g.gridLeft + styleWidth / 2) c
        = colDist g (styleLeft + g.gridLeft + styleWidth / 2)
            (snapCol g (styleLeft + g.gridLeft + styleWidth / 2)) →
      snapCol g (styleLeft + g.gridLeft + styleWidth / 2) ≤ c) ∧
    snapCardToGrid s g i styleLeft styleTop styleWidth i
      = some { card with
          col := snapCol g (styleLeft + g.gridLeft + styleWidth / 2)
          topRowFrac := snapTopFrac ((styleTop + g.gridTop -
            (g.cell1 (snapCol g (styleLeft + g.gridLeft + styleWidth / 2))).top)
              / g.rowHeight) } ∧
    snapTopFrac (61/5) = 23/2 := by
  obtain ⟨h1, h2, h3⟩ := snapCol_spec g (styleLeft + g.gridLeft + styleWidth / 2)
  refine ⟨h1, h2, h3, ?_, snapTopFrac_at_12_2⟩
  simp [snapCardToGrid, hs]

/-- C7: the rendered pixel rectangle of every card has width 90 % of the
column width, left edge at the column's left edge plus 5 % of the column
width, visible height `max (max(heightFrac, 0.5)·rowHeight − 2·(0.10·rowHeight),
0.30·rowHeight)`, and top at the row-1 cell's top edge plus
`topRowFrac·rowHeight` plus the `0.10·rowHeight` margin. -/
theorem render_card_formula (g : Grid) (card : Card) :
    (renderCard g card).width = g.colWidth * (90/100) ∧
    (renderCard g card).left + g.gridLeft
      = (g.cell1 card.col).left + g.colWidth * (5/100) ∧
    (renderCard g card).height
      = max (max card.heightFrac (1/2) * g.rowHeight
            - 2 * ((10/100) * g.rowHeight))
          ((30/100) * g.rowHeight) ∧
    (renderCard g card).top + g.gridTop
      = (g.cell1 card.col).top + card.topRowFrac * g.rowHeight
          + (10/100) * g.rowHeight := by
  refine ⟨rfl, ?_, ?_, ?_⟩
  · simp only [renderCard]
    ring
  · simp only [renderCard]
    congr 1
    · ring
    · ring
  · simp only [renderCard]
    ring

/-- Witness for `move_release_snap`: the fixture card dragged to
`(215, 380)` with width 90 snaps to column 2 (center 260 is closest to
column 2's center 250) and `topRowFrac = 3.5` (offset 3.3 rounds to 3.5) —
the spec's Scenario C. -/
theorem move_release_snap_witness :
    exStore "a" = some exCard ∧
    snapCardToGrid exStore exGrid "a" 215 380 90 "a"
      = some { exCard with col := 2, topRowFrac := 7/2 } := by
  have hs : exStore "a" = some exCard := rfl
  have h := (move_release_snap exStore exGrid "a" exCard 215 380 90 hs).2.2.2.1
  refine ⟨hs, ?_⟩
  rw [h]
  have hc : snapCol exGrid (215 + exGrid.gridLeft + 90 / 2) = 2 := by
    norm_num [snapCol, snapColLoop, colDist, exGrid]
  rw [hc]
  have ht : snapTopFrac ((380 + exGrid.gridTop - (exGrid.cell1 2).top)
      / exGrid.rowHeight) = 7/2 := by
    have h1 : (380 + exGrid.gridTop - (exGrid.cell1 2).top) / exGrid.rowHeight
        = 33/10 := by
      norm_num [exGrid]
    rw [h1]
    have h2 : jsRound (33/10 * 2) = 7 := by
      rw [jsRound, Int.floor_eq_iff]
      norm_num
    rw [snapTopFrac, roundHalf, h2]
    rw [show ((7 : ℤ) : ℚ) / 2 = 7/2 by norm_num]
    rw [min_eq_right (by norm_num), max_eq_right (by norm_num)]
  rw [ht]

/-- Rounding to the nearest 0.5 leaves a multiple of 0.5 shifted by the
0.1-row render margin unchanged: `roundHalf (n/2 + 1/10) = n/2`. -/
lemma roundHalf_halfint_add_tenth (n : ℤ) :
    roundHalf ((n : ℚ)/2 + 1/10) = (n : ℚ)/2 := by
  rw [roundHalf, jsRound]
  rw [show ((n : ℚ)/2 + 1/10) * 2 + 1/2 = (n : ℚ) + 7/10 by ring]
  rw [Int.floor_int_add]
  norm_num

/-- C4: `resolve` is idempotent.  On a grid whose row-1 day cells sit at
`L + c·colWidth` with width `colWidth`, feeding the renderer's pixel
rectangle of an already-snapped card (col in 1..5, `topRowFrac` a multiple
of 0.5 in [0, 11.5]) back into the snap computation yields the same
`(col, topRowFrac)`, so the store is unchanged. -/
theorem resolve_idempotent (s : CardStore) (g : Grid) (i : String)
    (card : Card) (L : ℚ)
    (hcw : 0 < g.colWidth) (hrh : 0 < g.rowHeight)
    (hcells : ∀ c, 1 ≤ c → c ≤ 5 →
      (g.cell1 c).left = L + c * g.colWidth ∧ (g.cell1 c).width = g.colWidth)
    (hcol : 1 ≤ card.col ∧ card.col ≤ 5)
    (htf : ∃ n : ℤ, card.topRowFrac = (n : ℚ) / 2)
    (hrange : 0 ≤ card.topRowFrac ∧ card.topRowFrac ≤ 23/2)
    (hs : s i = some card) :
    snapCol g ((renderCard g card).left + g.gridLeft
        + (renderCard g card).width / 2) = card.col ∧
    snapTopFrac (((renderCard g card).top + g.gridTop
        - (g.cell1 card.col).top) / g.rowHeight) = card.topRowFrac ∧
    snapCardToGrid s g i (renderCard g card).left (renderCard g card).top
      (renderCard g card).width = s := by
  -- the dragged rectangle's horizontal center is the card's column center
  have hx : (renderCard g card).left + g.gridLeft
      + (renderCard g card).width / 2
      = L + card.col * g.colWidth + g.colWidth / 2 := by
    obtain ⟨hl, _⟩ := hcells card.col hcol.1 hcol.2
    simp only [renderCard]
    rw [hl]
    ring
  set x := (renderCard g card).left + g.gridLeft
    + (renderCard g card).width / 2 with hxdef
  have hdist : ∀ c, 1 ≤ c → c ≤ 5 →
      colDist g x c = |((c : ℚ) - card.col)| * g.colWidth := by
    intro c h1 h5
    obtain ⟨hl, hw⟩ := hcells c h1 h5
    rw [colDist, hl, hw, hx]
    rw [show L + (c : ℚ) * g.colWidth + g.colWidth / 2
        - (L + (card.col : ℚ) * g.colWidth + g.colWidth / 2)
        = ((c : ℚ) - card.col) * g.colWidth by ring]
    rw [abs_mul, abs_of_pos hcw]
  -- column selection returns the card's own column
  obtain ⟨hr15, hmin, _⟩ := snapCol_spec g x
  have hcol0 : colDist g x card.col = 0 := by
    rw [hdist card.col hcol.1 hcol.2]
    simp
  have hcolEq : snapCol g x = card.col := by
    have h1 := hmin card.col hcol.1 hcol.2
    rw [hcol0] at h1
    have h2 : colDist g x (snapCol g x) = 0 :=
      le_antisymm h1 (abs_nonneg _)
    rw [hdist (snapCol g x) hr15.1 hr15.2] at h2
    rcases mul_eq_zero.mp h2 with h3 | h3
    · have h4 : ((snapCol g x : ℚ)) = (card.col : ℚ) := by
        have := abs_eq_zero.mp h3
        linarith
      exact_mod_cast h4
    · exact absurd h3 (ne_of_gt hcw)
  -- vertical: the rendered top is topRowFrac + 0.1 rows below row 1
  have hrowsEq : ((renderCard g card).top + g.gridTop
      - (g.cell1 card.col).top) / g.rowHeight
      = card.topRowFrac + 1/10 := by
    simp only [renderCard]
    field_simp
    ring
  obtain ⟨n, hn⟩ := htf
  have htop : snapTopFrac (((renderCard g card).top + g.gridTop
      - (g.cell1 card.col).top) / g.rowHeight) = card.topRowFrac := by
    rw [hrowsEq, hn, snapTopFrac, roundHalf_halfint_add_tenth]
    rw [min_eq_right (by rw [← hn]; exact hrange.2),
      max_eq_right (by rw [← hn]; exact hrange.1)]
  refine ⟨hcolEq, htop, ?_⟩
  -- the store write re-writes the card's own coordinates
  funext j
  simp only [snapCardToGrid, hs]
  by_cases hj : j = i
  · subst hj
    rw [if_pos rfl, hs, ← hxdef, hcolEq, htop]
  · rw [if_neg hj]

/-- Witness for `resolve_idempotent` at the concrete fixture. -/
theorem resolve_idempotent_witness :
    snapCardToGrid exStore exGrid "a" (renderCard exGrid exCard).left
      (renderCard exGrid exCard).top (renderCard exGrid exCard).width
      = exStore :=
  (resolve_idempotent exStore exGrid "a" exCard 0 (by norm_num [exGrid])
    (by norm_num [exGrid])
    (by
      intro c h1 h5
      refine ⟨?_, by norm_num [exGrid]⟩
      show (100 : ℚ) * c = 0 + c * 100
      ring)
    (by constructor <;> norm_num [exCard])
    ⟨6, by norm_num [exCard]⟩
    (by constructor <;> norm_num [exCard]) rfl).2.2

/-!
Range preservation of `topRowFrac` (C2) and its failure under copy.
-/

/-- The snapped-and-clamped vertical offset always lies in [0, 11.5]. -/
lemma snapTopFrac_mem (q : ℚ) :
    0 ≤ snapTopFrac q ∧ snapTopFrac q ≤ 23/2 := by
  constructor
  · exact le_max_left 0 _
  · rw [snapTopFrac]
    exact max_le (by norm_num) (min_le_left _ _)

/-- Updating one card whose `topRowFrac` is in range preserves the
store-wide range invariant. -/
lemma storeTopInRange_update (s : CardStore) (i : String) (card : Card)
    (h : storeTopInRange s) (hc : topInRange card.topRowFrac) :
    storeTopInRange (fun j => if j = i then some card else s j) := by
  intro j c hj
  simp only at hj
  by_cases hji : j = i
  · rw [if_pos hji] at hj
    cases hj
    exact hc
  · rw [if_neg hji] at hj
    exact h j c hj

/-- C2 counterexample: copying a card at the bottom boundary
(`topRowFrac = 11.5`, `heightFrac = 1`, both in range) produces a card with
`topRowFrac = 13 ∉ [0, 11.5]` — the copy operation does not clamp. -/
theorem topRowFrac_range_copy_counterexample :
    topInRange exCardBottom.topRowFrac ∧
    (copyActiveCard exStoreBottom (some "a") "b").1 "b"
      = some { exCardBottom with id := "b", topRowFrac := 13 } ∧
    ¬ topInRange (13 : ℚ) := by
  refine ⟨?_, ?_, ?_⟩
  · constructor
    · norm_num [exCardBottom]
    · norm_num [exCardBottom]
  · norm_num [copyActiveCard, exStoreBottom, exCardBottom]
  · intro h
    have := h.2
    norm_num at this

/-- C2 amended: `topRowFrac ∈ [0, 11.5]` is preserved by move-release,
resize-release, recolor, edit and delete, and holds for cards created from
the cell menu (rows 1–12); the copy operation, however, writes
`topRowFrac = orig.topRowFrac + orig.heightFrac + 0.5` unclamped (see the
counterexample), so it is excluded. -/
theorem topRowFrac_range_preserved (s : CardStore) (g : Grid) (i : String)
    (sl st sw hpx rh : ℚ) (color text newId : String) (a : Option String)
    (row col : ℕ) (hrow1 : 1 ≤ row) (hrow12 : row ≤ 12)
    (h : storeTopInRange s) :
    storeTopInRange (snapCardToGrid s g i sl st sw) ∧
    storeTopInRange (resizeRelease s i hpx rh) ∧
    storeTopInRange (setCardColor s i color) ∧
    storeTopInRange (setCardText s i text) ∧
    storeTopInRange (deleteCard s i a).1 ∧
    storeTopInRange (createCard s newId row col).1 := by
  refine ⟨?_, ?_, ?_, ?_, ?_, ?_⟩
  · rw [snapCardToGrid]
    cases hsi : s i with
    | none => exact h
    | some card =>
        exact storeTopInRange_update s i _ h (snapTopFrac_mem _)
  · rw [resizeRelease]
    cases hsi : s i with
    | none => exact h
    | some card => exact storeTopInRange_update s i _ h (h i card hsi)
  · rw [setCardColor]
    cases hsi : s i with
    | none => exact h
    | some card => exact storeTopInRange_update s i _ h (h i card hsi)
  · rw [setCardText]
    cases hsi : s i with
    | none => exact h
    | some card => exact storeTopInRange_update s i _ h (h i card hsi)
  · intro j c hj
    simp only [deleteCard] at hj
    by_cases hji : j = i
    · rw [if_pos hji] at hj
      cases hj
    · rw [if_neg hji] at hj
      exact h j c hj
  · refine storeTopInRange_update s newId _ h ?_
    constructor
    · simp only
      have : (1 : ℚ) ≤ (row : ℚ) := by exact_mod_cast hrow1
      linarith
    · simp only
      have : (row : ℚ) ≤ 12 := by exact_mod_cast hrow12
      linarith

/-- Witness for `topRowFrac_range_preserved` at the boundary fixture. -/
theorem topRowFrac_range_preserved_witness :
    storeTopInRange (snapCardToGrid exStoreBottom exGrid "a" 0 0 0) ∧
    storeTopInRange (resizeRelease exStoreBottom "a" 100 100) ∧
    storeTopInRange (setCardColor exStoreBottom "a" "#ffadad") ∧
    storeTopInRange (setCardText exStoreBottom "a" "x") ∧
    storeTopInRange (deleteCard exStoreBottom "a" none).1 ∧
    storeTopInRange (createCard exStoreBottom "b" 3 2).1 :=
  topRowFrac_range_preserved exStoreBottom exGrid "a" 0 0 0 100 100
    "#ffadad" "x" "b" none 3 2 (by norm_num) (by norm_num)
    (by
      intro j c hj
      by_cases hja : j = "a"
      · rw [show exStoreBottom j = some exCardBottom by
          rw [exStoreBottom, if_pos hja]] at hj
        cases hj
        exact ⟨by norm_num [exCardBottom], by norm_num [exCardBottom]⟩
      · rw [show exStoreBottom j = none by
          rw [exStoreBottom, if_neg hja]] at hj
        cases hj)

/-!
Resize-release and rendering (C3, C5, C10).
-/

/-- C3 counterexample: with 100 px rows, releasing a resize at element
height 160 snaps `heightFrac` to 1.5 and sets the element's pixel height to
150, while re-rendering that card from the store would give height 130
(the renderer subtracts the two 10 %-of-row margins) — the resize path does
not re-render and its on-screen rectangle differs from the renderer's
output. -/
theorem resize_no_rerender_counterexample :
    resizeRelease exStore "a" 160 100 "a"
      = some { exCard with heightFrac := 3/2 } ∧
    resizeReleaseElementHeight 160 100 = 150 ∧
    (renderCard exGrid { exCard with heightFrac := 3/2 }).height = 130 ∧
    (150 : ℚ) ≠ 130 := by
  have hround : roundHalf (160 / 100) = 3/2 := by
    rw [roundHalf, jsRound]
    rw [show (160 / 100 : ℚ) * 2 + 1/2 = 37/10 by norm_num]
    rw [show ⌊(37/10 : ℚ)⌋ = 3 by
      rw [Int.floor_eq_iff]
      norm_num]
    norm_num
  refine ⟨?_, ?_, ?_, by norm_num⟩
  · rw [show resizeRelease exStore "a" 160 100 "a"
        = some { exCard with heightFrac := max (1/2) (roundHalf (160/100)) }
        by simp [resizeRelease, exStore]]
    rw [hround]
    norm_num
  · rw [resizeReleaseElementHeight, hround]
    norm_num
  · rw [renderCard]
    norm_num [exGrid]

/-- C3 amended: a resize-release writes the snapped `heightFrac` to the
store (and that mapping is what gets persisted), but it does not re-render:
the element's pixel height is set directly to `heightFrac · rowHeight`,
which exceeds the renderer's pure output for the updated card by exactly
the two 10 %-of-row-height margins (`0.2 · rowHeight`); the stored
coordinates themselves are consistent, so the next full re-render places
the card per `renderCard`. -/
theorem resize_release_amended (s : CardStore) (i : String) (card : Card)
    (g : Grid) (hpx : ℚ) (hs : s i = some card) (hrh : 0 < g.rowHeight) :
    resizeRelease s i hpx g.rowHeight i
      = some { card with
          heightFrac := max (1/2) (roundHalf (hpx / g.rowHeight)) } ∧
    resizeReleaseElementHeight hpx g.rowHeight
      = (renderCard g { card with
          heightFrac := max (1/2) (roundHalf (hpx / g.rowHeight)) }).height
        + g.rowHeight * (20/100) := by
  constructor
  · simp [resizeRelease, hs]
  · set hf := max (1/2 : ℚ) (roundHalf (hpx / g.rowHeight)) with hhf
    have h12 : (1/2 : ℚ) ≤ hf := le_max_left _ _
    have hge : g.rowHeight * (1/2) ≤ hf * g.rowHeight := by
      nlinarith
    simp only [resizeReleaseElementHeight, renderCard, ← hhf]
    rw [max_eq_left h12]
    rw [max_eq_left (by nlinarith)]
    ring

/-- Witness for `resize_release_amended` at the concrete fixture. -/
theorem resize_release_amended_witness :
    resizeRelease exStore "a" 160 exGrid.rowHeight "a"
      = some { exCard with
          heightFrac := max (1/2) (roundHalf (160 / exGrid.rowHeight)) } ∧
    resizeReleaseElementHeight 160 exGrid.rowHeight
      = (renderCard exGrid { exCard with
          heightFrac := max (1/2) (roundHalf (160 / exGrid.rowHeight)) }).height
        + exGrid.rowHeight * (20/100) :=
  resize_release_amended exStore "a" exCard exGrid 160
    (by simp [exStore]) (by norm_num [exGrid])

/-- Updating one card with `heightFrac ≥ 0.5` preserves the store-wide
lower bound. -/
lemma storeHeightOk_update (s : CardStore) (i : String) (card : Card)
    (h : storeHeightOk s) (hc : (1/2 : ℚ) ≤ card.heightFrac) :
    storeHeightOk (fun j => if j = i then some card else s j) := by
  intro j c hj
  simp only at hj
  by_cases hji : j = i
  · rw [if_pos hji] at hj
    cases hj
    exact hc
  · rw [if_neg hji] at hj
    exact h j c hj

/-- C5: `heightFrac ≥ 0.5` holds for every card immediately after any
create, resize-release or copy: create sets `heightFrac = 1`, the
resize-release floors the snapped value at 0.5
(`Math.max(0.5, snapped)`), and copy carries the original's
`heightFrac` over unchanged. -/
theorem heightFrac_lower_bound (s : CardStore) (newId i : String)
    (row col : ℕ) (hpx rh : ℚ) (a : Option String)
    (h : storeHeightOk s) :
    storeHeightOk (createCard s newId row col).1 ∧
    storeHeightOk (resizeRelease s i hpx rh) ∧
    storeHeightOk (copyActiveCard s a newId).1 ∧
    (createCard s newId row col).1 newId
      = some { id := newId, col := col, topRowFrac := (row : ℚ) - 1,
               heightFrac := 1, text := "Neue Karte", color := "#a8d8ea" } ∧
    (1/2 : ℚ) ≤ max (1/2) (roundHalf (hpx / rh)) := by
  refine ⟨?_, ?_, ?_, ?_, le_max_left _ _⟩
  · exact storeHeightOk_update s newId _ h (by norm_num)
  · rw [resizeRelease]
    cases hsi : s i with
    | none => exact h
    | some card =>
        exact storeHeightOk_update s i _ h (le_max_left _ _)
  · cases a with
    | none => exact h
    | some aid =>
        cases hsa : s aid with
        | none =>
            rw [show (copyActiveCard s (some aid) newId).1 = s by
              simp [copyActiveCard, hsa]]
            exact h
        | some orig =>
            have hcopy : (copyActiveCard s (some aid) newId).1
                = fun j => if j = newId then
                    some (Card.mk newId orig.col
                      (orig.topRowFrac + orig.heightFrac + 1/2)
                      orig.heightFrac orig.text orig.color)
                  else s j := by
              simp [copyActiveCard, hsa]
            rw [hcopy]
            exact storeHeightOk_update s newId _ h (h aid orig hsa)
  · simp [createCard]

/-- Witness for `heightFrac_lower_bound` at the concrete fixture. -/
theorem heightFrac_lower_bound_witness :
    storeHeightOk (createCard exStore "b" 3 2).1 ∧
    storeHeightOk (resizeRelease exStore "a" 10 100) ∧
    storeHeightOk (copyActiveCard exStore (some "a") "b").1 ∧
    (createCard exStore "b" 3 2).1 "b"
      = some { id := "b", col := 2, topRowFrac := (3 : ℚ) - 1,
               heightFrac := 1, text := "Neue Karte", color := "#a8d8ea" } ∧
    (1/2 : ℚ) ≤ max (1/2) (roundHalf (10 / 100)) :=
  heightFrac_lower_bound exStore "b" "a" 3 2 10 100 (some "a")
    (by
      intro j c hj
      by_cases hja : j = "a"
      · rw [show exStore j = some exCard by rw [exStore, if_pos hja]] at hj
        cases hj
        norm_num [exCard]
      · rw [show exStore j = none by rw [exStore, if_neg hja]] at hj
        cases hj)

/-- C6: with a card active and present in the store, the copy shortcut
inserts under a fresh id a card with identical `text`, `color`,
`heightFrac` and `col`, at `topRowFrac = orig.topRowFrac + orig.heightFrac
+ 0.5`, makes it the active card and leaves every other id untouched; if
no card is active, or the active id is absent from the store, store and
selection are unchanged. -/
theorem copy_active_card_spec (s : CardStore) (aid newId : String)
    (orig : Card) (hs : s aid = some orig) (hfresh : s newId = none) :
    (copyActiveCard s (some aid) newId).1 newId
      = some { id := newId, col := orig.col,
               topRowFrac := orig.topRowFrac + orig.heightFrac + 1/2,
               heightFrac := orig.heightFrac, text := orig.text,
               color := orig.color } ∧
    (copyActiveCard s (some aid) newId).2 = some newId ∧
    (∀ j, j ≠ newId → (copyActiveCard s (some aid) newId).1 j = s j) ∧
    (copyActiveCard s (some aid) newId).1 aid = some orig ∧
    (∀ t : CardStore, copyActiveCard t none newId = (t, none)) ∧
    (∀ t : CardStore, t aid = none →
      copyActiveCard t (some aid) newId = (t, some aid)) := by
  have hne : aid ≠ newId := by
    intro he
    rw [he, hfresh] at hs
    cases hs
  refine ⟨?_, ?_, ?_, ?_, ?_, ?_⟩
  · simp [copyActiveCard, hs]
  · simp [copyActiveCard, hs]
  · intro j hj
    simp [copyActiveCard, hs, hj]
  · simp [copyActiveCard, hs, hne]
  · intro t
    rfl
  · intro t ht
    simp [copyActiveCard, ht]

/-- Witness for `copy_active_card_spec`: copying the fixture card. -/
theorem copy_active_card_spec_witness :
    (copyActiveCard exStore (some "a") "b").1 "b"
      = some { id := "b", col := exCard.col,
               topRowFrac := exCard.topRowFrac + exCard.heightFrac + 1/2,
               heightFrac := exCard.heightFrac, text := exCard.text,
               color := exCard.color } ∧
    (copyActiveCard exStore (some "a") "b").2 = some "b" ∧
    (copyActiveCard exStore (some "a") "b").1 "a" = exStore "a" := by
  have h := copy_active_card_spec exStore "a" "b" exCard
    (by simp [exStore]) (by simp [exStore])
  exact ⟨h.1, h.2.1, h.2.2.1 "a" (by simp)⟩

/-!
The click/drag threshold (C8) and no-ops on unknown ids (C9, C10).
-/

/-- C8 counterexample: a pointer movement of exactly 3 px in the x-axis
(which is “at least 3 px”) does not latch the `moved` flag
(`Math.abs(dx) > 3` is strict), so the release is treated as a click that
activates the card and enters edit mode, not as a drag-move. -/
theorem drag_threshold_counterexample :
    (3 : ℚ) ≤ |(3 : ℚ)| ∧
    cardBodyRelease exStore exGrid none "a" [((3 : ℚ), 0)] 0 0 0
      = (exStore, some "a", true) := by
  constructor
  · norm_num
  · rw [cardBodyRelease]
    rw [show movedAfter [((3 : ℚ), 0)] = false by
      simp [movedAfter]]
    simp

/-- C8 amended: movement strictly greater than 3 px in either axis (on any
mousemove, measured cumulatively from the press point) turns the gesture
into a drag-move whose release snaps the card; if every move stays within
3 px in both axes, the release is a click that makes the card the active
card and enters text-edit mode, leaving the store untouched. -/
theorem drag_threshold_amended (s : CardStore) (g : Grid)
    (a : Option String) (i : String) (moves : List (ℚ × ℚ))
    (sl st sw : ℚ) :
    ((∃ p ∈ moves, 3 < |p.1| ∨ 3 < |p.2|) →
      cardBodyRelease s g a i moves sl st sw
        = (snapCardToGrid s g i sl st sw, a, false)) ∧
    ((∀ p ∈ moves, |p.1| ≤ 3 ∧ |p.2| ≤ 3) →
      cardBodyRelease s g a i moves sl st sw = (s, some i, true)) := by
  have hiff : movedAfter moves = true ↔
      ∃ p ∈ moves, 3 < |p.1| ∨ 3 < |p.2| := by
    simp [movedAfter, List.any_eq_true]
  constructor
  · intro hmv
    rw [cardBodyRelease, if_pos (hiff.mpr hmv)]
  · intro hst
    have hfalse : ¬ movedAfter moves = true := by
      rw [hiff]
      rintro ⟨p, hp, hlt | hlt⟩
      · exact absurd hlt (not_lt_of_le (hst p hp).1)
      · exact absurd hlt (not_lt_of_le (hst p hp).2)
    rw [cardBodyRelease, if_neg hfalse]

/-- Witness for `drag_threshold_amended`: a 4 px horizontal movement makes
the release a drag-move. -/
theorem drag_threshold_amended_witness :
    cardBodyRelease exStore exGrid none "a" [((4 : ℚ), 0)] 0 0 0
      = (snapCardToGrid exStore exGrid "a" 0 0 0, none, false) :=
  (drag_threshold_amended exStore exGrid none "a" [((4 : ℚ), 0)] 0 0 0).1
    ⟨(4, 0), by simp, Or.inl (by norm_num)⟩

/-- C9: every store mutation invoked with a card id that is absent from the
mapping — move-snap, resize, recolor, set-text, delete — leaves the card
mapping unchanged. -/
theorem unknown_id_noop (s : CardStore) (g : Grid) (i : String)
    (sl st sw hpx rh : ℚ) (color text : String) (a : Option String)
    (hs : s i = none) :
    snapCardToGrid s g i sl st sw = s ∧
    resizeRelease s i hpx rh = s ∧
    setCardColor s i color = s ∧
    setCardText s i text = s ∧
    (deleteCard s i a).1 = s := by
  refine ⟨?_, ?_, ?_, ?_, ?_⟩
  · rw [snapCardToGrid, hs]
  · rw [resizeRelease, hs]
  · rw [setCardColor, hs]
  · rw [setCardText, hs]
  · funext j
    simp only [deleteCard]
    by_cases hji : j = i
    · rw [if_pos hji, hji, hs]
    · rw [if_neg hji]

/-- Witness for `unknown_id_noop` on an id missing from the fixture store. -/
theorem unknown_id_noop_witness :
    snapCardToGrid exStore exGrid "z" 0 0 0 = exStore ∧
    resizeRelease exStore "z" 100 100 = exStore ∧
    setCardColor exStore "z" "#ffadad" = exStore ∧
    setCardText exStore "z" "x" = exStore ∧
    (deleteCard exStore "z" none).1 = exStore :=
  unknown_id_noop exStore exGrid "z" 0 0 0 100 100 "#ffadad" "x" none
    (by simp [exStore])

/-- C10: a resize-release changes only the resized card's `heightFrac`;
its id, column, vertical offset, text and color, and every other card in
the store, are exactly as before. -/
theorem resize_release_frame (s : CardStore) (i : String) (card : Card)
    (hpx rh : ℚ) (hs : s i = some card) :
    resizeRelease s i hpx rh i
      = some { id := card.id, col := card.col,
               topRowFrac := card.topRowFrac,
               heightFrac := max (1/2) (roundHalf (hpx / rh)),
               text := card.text, color := card.color } ∧
    ∀ j, j ≠ i → resizeRelease s i hpx rh j = s j := by
  constructor
  · simp [resizeRelease, hs]
  · intro j hj
    simp [resizeRelease, hs, hj]

/-- Witness for `resize_release_frame` at the concrete fixture. -/
theorem resize_release_frame_witness :
    resizeRelease exStore "a" 160 100 "a"
      = some { id := exCard.id, col := exCard.col,
               topRowFrac := exCard.topRowFrac,
               heightFrac := max (1/2) (roundHalf (160 / 100)),
               text := exCard.text, color := exCard.color } ∧
    resizeRelease exStore "a" 160 100 "z" = exStore "z" := by
  have h := resize_release_frame exStore "a" exCard 160 100 (by simp [exStore])
  exact ⟨h.1, h.2 "z" (by simp)⟩
